import Mathlib

/-
Verification development for the Go_FormanceLegder repository.

This file gives a shallow embedding of the write path of the ledger service:
the command service (Service.PostTransaction together with
loadAndLockAccounts and validateDoubleEntry), the projector
(projectBatch, applyTransactionPosted, updateAccountBalance), and the
webhook worker (Worker.Work, Worker.sendSingleWebhook,
computeWebhookSignature), over an explicit relational state (the Db
structure mirrors the tables created by the SQL migrations).

Modelling conventions:
  * money amounts are rationals (Go math/big Rat);
  * machine-generated UUIDs (uuid.NewString) are passed in as explicit
    String arguments, since their values are external entropy;
  * created_at timestamps are modelled by a logical clock (Nat) that the
    store increments at each committed append, matching commit order;
  * every database statement of one Go function runs inside one database
    transaction; an error makes the whole function return the unchanged
    state (rollback), success returns the updated state (commit).
-/

set_option maxRecDepth 10000

namespace FormanceLedger

/-! ## Decimal strings

Go code parses amounts with math/big Rat.SetString.  We model SetString
restricted to base-10 literals: a fraction a/b of decimal integers, or a
decimal mantissa with an optional decimal exponent.  Base-prefixed forms
(0x/0b/0o), binary exponents and digit-separator underscores accepted by
the Go parser are outside the modelled grammar; no amount handled by the
claims uses them. -/

def isDigitChar (c : Char) : Bool := 48 ≤ c.toNat && c.toNat ≤ 57

def digitVal (c : Char) : Nat := c.toNat - 48

/-- Longest digit span at the front of the list, and the rest. -/
def takeDigits : List Char → List Char × List Char
  | [] => ([], [])
  | c :: cs =>
    if isDigitChar c then
      let r := takeDigits cs
      (c :: r.1, r.2)
    else ([], c :: cs)

def digitsToNat (ds : List Char) : Nat :=
  ds.foldl (fun a c => a * 10 + digitVal c) 0

/-- Strip one optional sign character; true means negative. -/
def parseSign : List Char → Bool × List Char
  | '-' :: cs => (true, cs)
  | '+' :: cs => (false, cs)
  | cs => (false, cs)

def pow10Q : Int → ℚ
  | Int.ofNat n => (10 : ℚ) ^ n
  | Int.negSucc n => ((10 : ℚ) ^ (n + 1))⁻¹

/-- Value of sign, integer digits, fraction digits and decimal exponent. -/
def decimalVal (neg : Bool) (ip fp : List Char) (e : Int) : ℚ :=
  (if neg then (-1 : ℚ) else 1) * (digitsToNat (ip ++ fp) : ℚ)
    * pow10Q (e - (fp.length : Int))

/-- Decimal-literal grammar shared by big.Rat SetString (the non-fraction
branch) and the Postgres NUMERIC input routine: optional sign, digits with
an optional dot (at least one digit), optional e or E exponent, nothing
left over. -/
def parseDecimalChars (cs : List Char) : Option ℚ :=
  let s1 := parseSign cs
  let ipr := takeDigits s1.2
  let fpr :=
    match ipr.2 with
    | '.' :: r => takeDigits r
    | other => ([], other)
  let hasDot : Bool := match ipr.2 with | '.' :: _ => true | _ => false
  let fp := if hasDot then fpr.1 else []
  let rest := if hasDot then fpr.2 else ipr.2
  if ipr.1.length + fp.length == 0 then none
  else
    match rest with
    | [] => some (decimalVal s1.1 ipr.1 fp 0)
    | c :: r =>
      if c == 'e' || c == 'E' then
        let es := parseSign r
        let ed := takeDigits es.2
        if ed.1.isEmpty || !ed.2.isEmpty then none
        else
          some (decimalVal s1.1 ipr.1 fp
            (if es.1 then -(digitsToNat ed.1 : Int) else (digitsToNat ed.1 : Int)))
      else none

/-- Split at the first slash, as strings.Index does in Rat.SetString. -/
def splitOnSlash : List Char → Option (List Char × List Char)
  | [] => none
  | c :: cs =>
    if c == '/' then some ([], cs)
    else
      match splitOnSlash cs with
      | some (a, b) => some (c :: a, b)
      | none => none

/-- Signed decimal integer consuming the whole input. -/
def parseIntChars (cs : List Char) : Option Int :=
  let s := parseSign cs
  let d := takeDigits s.2
  if d.1.isEmpty || !d.2.isEmpty then none
  else some (if s.1 then -(digitsToNat d.1 : Int) else (digitsToNat d.1 : Int))

/-- Unsigned decimal integer consuming the whole input. -/
def parseNatChars (cs : List Char) : Option Nat :=
  let d := takeDigits cs
  if d.1.isEmpty || !d.2.isEmpty then none else some (digitsToNat d.1)

/-- Go math/big Rat.SetString on base-10 inputs: empty input fails; with a
slash, both sides parse as decimal integers and the denominator must be
non-zero; otherwise the decimal-literal grammar applies. -/
def ratSetString (s : String) : Option ℚ :=
  match s.data with
  | [] => none
  | cs =>
    match splitOnSlash cs with
    | some (a, b) =>
      match parseIntChars a, parseNatChars b with
      | some n, some d => if d == 0 then none else some ((n : ℚ) / (d : ℚ))
      | _, _ => none
    | none => parseDecimalChars cs

/-- Postgres NUMERIC input for values bound into NUMERIC(38,10) columns:
the decimal-literal grammar (sign, digits, optional dot, optional
exponent), which is exactly the fraction-free part of the Rat grammar, so
it is the slash-free restriction of ratSetString.  (The NaN literal and
surrounding whitespace accepted by Postgres are not modelled; no value on
the write path produces them.) -/
def pgNumericParse (s : String) : Option ℚ :=
  if s.data.contains '/' then none else ratSetString s

/-- A value the NUMERIC column accepts parses to the same rational in the
Go Rat parser: updateAccountBalance re-reads exactly the stored number. -/
theorem ratSetString_of_pg (s : String) (q : ℚ) (h : pgNumericParse s = some q) :
    ratSetString s = some q := by
  unfold pgNumericParse at h
  by_cases hc : s.data.contains '/' = true
  · rw [if_pos hc] at h
    exact absurd h (by simp)
  · rwa [if_neg hc] at h

/-! ## Rounding at the column scale

accounts.balance, postings.amount and transactions.amount are
NUMERIC(38,10).  Rat.FloatString(10) in updateAccountBalance and the
NUMERIC(38,10) assignment both round to 10 fractional digits, ties away
from zero. -/

def colScale : Nat := 10000000000

/-- Round a non-negative rational to 10 fractional digits, half up.  The
integer division is on non-negative operands, so it is a floor. -/
def posRound10 (x : ℚ) : ℚ :=
  (((2 * x.num * (colScale : Int) + (x.den : Int)) / (2 * (x.den : Int)) : Int) : ℚ)
    / (colScale : ℚ)

/-- Round to 10 fractional digits, ties away from zero: the semantics of
both Rat.FloatString(10) and a NUMERIC(38,10) column assignment. -/
def ratRound10 (q : ℚ) : ℚ :=
  if q < 0 then -(posRound10 (-q)) else posRound10 q

theorem ratRound10_neg (q : ℚ) : ratRound10 (-q) = -(ratRound10 q) := by
  rcases lt_trichotomy q 0 with h | h | h
  · have h1 : ¬(-q < 0) := by linarith
    simp only [ratRound10, if_pos h, if_neg h1, neg_neg]
  · subst h
    simp [ratRound10, posRound10]
  · have h1 : -q < 0 := by linarith
    have h2 : ¬(q < 0) := by linarith
    simp only [ratRound10, if_pos h1, if_neg h2, neg_neg]

/-! ## Generic list utilities used by the embedding -/

/-- Insertion of one element into a list sorted by the boolean relation. -/
def insertLe {α : Type} (le : α → α → Bool) (x : α) : List α → List α
  | [] => [x]
  | y :: ys => if le x y then x :: y :: ys else y :: insertLe le x ys

/-- Insertion sort, used to model ORDER BY. -/
def sortLe {α : Type} (le : α → α → Bool) : List α → List α
  | [] => []
  | x :: xs => insertLe le x (sortLe le xs)

/-- Lexicographic comparison of character lists: the order of Go
sort.Strings and of SQL text and uuid comparison (bytewise coincides with
codepoint order on the ASCII strings involved). -/
def charListLt : List Char → List Char → Bool
  | [], [] => false
  | [], _ :: _ => true
  | _ :: _, [] => false
  | a :: as, b :: bs =>
    if a < b then true else if b < a then false else charListLt as bs

def strLtB (a b : String) : Bool := charListLt a.data b.data

def strLeB (a b : String) : Bool := !(charListLt b.data a.data)

/-- Deduplicate preserving first occurrence (Go set-of-codes). -/
def dedup : List String → List String
  | [] => []
  | c :: cs =>
    let r := dedup cs
    if cs.contains c then r else c :: r

/-! ## Data model

Structures mirror internal/ledger/types.go, the webhook types and the
tables of migrations 000002 and 000003.  Random UUID primary keys that no
code reads back (postings.id, webhook_deliveries.id) are omitted. -/

structure PostingInput where
  accountCode : String
  direction : String
  amount : String
deriving DecidableEq

structure PostTransactionCommand where
  ledgerId : String
  externalId : String
  idempotencyKey : String
  currency : String
  occurredAt : String
  postings : List PostingInput
deriving DecidableEq

/-- Row of the accounts table (read and locked by the command service,
updated by the projector).  balance is NUMERIC(38,10). -/
structure Account where
  id : String
  ledgerId : String
  code : String
  type : String
  balance : ℚ
deriving DecidableEq

/-- The TransactionPosted payload as built in Service.PostTransaction.
occurred_at is the RFC3339Nano UTC rendering of the command time; times
are carried as opaque strings (the projector re-parse of a string this
path produced always succeeds and is not modelled as a failure). -/
structure TxPayload where
  transactionId : String
  externalId : String
  currency : String
  occurredAt : String
  postings : List PostingInput
deriving DecidableEq

/-- Row of the events table.  createdAt is the logical commit stamp. -/
structure Event where
  id : String
  ledgerId : String
  aggregateType : String
  aggregateId : String
  eventType : String
  payload : TxPayload
  occurredAt : String
  createdAt : Nat
  idempotencyKey : String
deriving DecidableEq

/-- Arguments of one outbox job, webhook.WebhookArgs; also the durable
content of the river_job row inserted by RiverClient.InsertTx. -/
structure WebhookArgs where
  eventId : String
  ledgerId : String
deriving DecidableEq

/-- Row of the transactions read-model table. -/
structure TxnRow where
  id : String
  ledgerId : String
  externalId : String
  amount : ℚ
  currency : String
  occurredAt : String
deriving DecidableEq

/-- Row of the postings read-model table (uuid primary key omitted). -/
structure PostingRow where
  ledgerId : String
  transactionId : String
  accountId : String
  amount : ℚ
  direction : String
deriving DecidableEq

/-- Row of webhook_endpoints. -/
structure WebhookEndpoint where
  id : String
  ledgerId : String
  url : String
  secret : String
  isActive : Bool
deriving DecidableEq

/-- Row of webhook_deliveries (uuid primary key and timestamp omitted). -/
structure DeliveryRow where
  eventId : String
  endpointId : String
  status : String
  attempt : Nat
  httpStatus : Nat
  errorMessage : String
deriving DecidableEq

/-- The shared relational store.  clock supplies created_at stamps in
commit order. -/
structure Db where
  events : List Event
  jobs : List WebhookArgs
  accounts : List Account
  transactions : List TxnRow
  postings : List PostingRow
  offsets : List (String × String)
  webhookEndpoints : List WebhookEndpoint
  webhookDeliveries : List DeliveryRow
  clock : Nat
deriving DecidableEq

/-! ## Ledger command service (integration copy of ledger/service.go) -/

inductive LedgerError
  | tooFewPostings
  | accountNotFound (code : String)
  | invalidDirection (d : String)
  | invalidAmount (a : String)
  | nonPositiveAmount (a : String)
  | unbalanced
  | accountsMissing (ledgerId : String)
  | uniqueViolation
deriving DecidableEq

/-- Messages as produced by fmt.Errorf in the Go source. -/
def ledgerErrorMessage : LedgerError → String
  | .tooFewPostings => "transaction must have at least 2 postings"
  | .accountNotFound c => "account " ++ c ++ " not found"
  | .invalidDirection d => "invalid direction: " ++ d
  | .invalidAmount a => "invalid amount: " ++ a
  | .nonPositiveAmount a => "amount must be positive: " ++ a
  | .unbalanced => "debits must equal credits"
  | .accountsMissing l => "one or more accounts not found for ledger " ++ l
  | .uniqueViolation => "duplicate key value violates unique constraint"

/-- Per-posting loop of validateDoubleEntry: account membership, direction,
amount parse, positivity, then accumulation into the running debit and
credit totals. -/
def validateLoop (accounts : List (String × Account)) :
    List PostingInput → ℚ → ℚ → Except LedgerError (ℚ × ℚ)
  | [], d, c => .ok (d, c)
  | p :: ps, d, c =>
    if (List.lookup p.accountCode accounts).isNone then
      .error (.accountNotFound p.accountCode)
    else if p.direction != "debit" && p.direction != "credit" then
      .error (.invalidDirection p.direction)
    else
      match ratSetString p.amount with
      | none => .error (.invalidAmount p.amount)
      | some q =>
        if q ≤ 0 then .error (.nonPositiveAmount p.amount)
        else if p.direction == "debit" then validateLoop accounts ps (d + q) c
        else validateLoop accounts ps d (c + q)

/-- ledger.validateDoubleEntry: at least two postings, per-posting checks,
and exact equality of the debit and credit totals (big.Rat comparison). -/
def validateDoubleEntry (cmd : PostTransactionCommand)
    (accounts : List (String × Account)) : Except LedgerError Unit :=
  if cmd.postings.length < 2 then .error .tooFewPostings
  else
    match validateLoop accounts cmd.postings 0 0 with
    | .error e => .error e
    | .ok (d, c) => if d == c then .ok () else .error .unbalanced

/-- Service.loadAndLockAccounts: deduplicate the referenced codes, sort
ascending (deterministic lock order), select the matching account rows FOR
UPDATE, and fail unless every code was found. -/
def loadAndLockAccounts (db : Db) (ledgerId : String)
    (postings : List PostingInput) : Except LedgerError (List (String × Account)) :=
  let codes := sortLe strLeB (dedup (postings.map (fun p => p.accountCode)))
  let found := codes.filterMap (fun c =>
    (db.accounts.find? (fun a => a.ledgerId == ledgerId && a.code == c)).map
      (fun a => (c, a)))
  if found.length == codes.length then .ok found
  else .error (.accountsMissing ledgerId)

/-- The event row Service.PostTransaction appends: aggregate ledger, event
type TransactionPosted, payload capturing the command verbatim, the
idempotency key as given (an empty command key is stored as the empty
string, not NULL). -/
def postedEvent (db : Db) (cmd : PostTransactionCommand)
    (eventId transactionId : String) : Event :=
  { id := eventId
    ledgerId := cmd.ledgerId
    aggregateType := "ledger"
    aggregateId := transactionId
    eventType := "TransactionPosted"
    payload :=
      { transactionId := transactionId
        externalId := cmd.externalId
        currency := cmd.currency
        occurredAt := cmd.occurredAt
        postings := cmd.postings }
    occurredAt := cmd.occurredAt
    createdAt := db.clock
    idempotencyKey := cmd.idempotencyKey }

/-- Commit-time check of the events constraints: the uuid primary key and
UNIQUE (ledger_id, idempotency_key).  Keys are TEXT values, so two empty
string keys on one ledger do conflict. -/
def eventInsertConflict (db : Db) (e : Event) : Bool :=
  db.events.any (fun o =>
    o.id == e.id || (o.ledgerId == e.ledgerId && o.idempotencyKey == e.idempotencyKey))

/-- Step 1 of Service.PostTransaction: SELECT aggregate_id FROM events
WHERE ledger_id AND idempotency_key match the command.  The query is made
for every command; the source has no guard for an empty key. -/
def idempotencyProbe (db : Db) (ledgerId key : String) : Option String :=
  (db.events.find? (fun e => e.ledgerId == ledgerId && e.idempotencyKey == key)).map
    (fun e => e.aggregateId)

/-- Steps 2-6 of Service.PostTransaction (everything after the probe):
lock accounts, validate, append the event and enqueue the outbox job with
the same transaction handle, commit. -/
def postTransactionBody (db : Db) (cmd : PostTransactionCommand)
    (eventId transactionId : String) : Except LedgerError (String × Db) :=
  match loadAndLockAccounts db cmd.ledgerId cmd.postings with
  | .error e => .error e
  | .ok accounts =>
    match validateDoubleEntry cmd accounts with
    | .error e => .error e
    | .ok _ =>
      let ev := postedEvent db cmd eventId transactionId
      if eventInsertConflict db ev then .error .uniqueViolation
      else
        .ok (transactionId,
          { db with
              events := db.events ++ [ev]
              jobs := db.jobs ++ [{ eventId := eventId, ledgerId := cmd.ledgerId }]
              clock := db.clock + 1 })

/-- Service.PostTransaction.  The two fresh uuid.NewString values are
explicit arguments.  Any error rolls the transaction back, so the state
component of the result is the unchanged input state. -/
def postTransaction (db : Db) (cmd : PostTransactionCommand)
    (eventId transactionId : String) : Except LedgerError String × Db :=
  match idempotencyProbe db cmd.ledgerId cmd.idempotencyKey with
  | some aggId => (.ok aggId, db)
  | none =>
    match postTransactionBody db cmd eventId transactionId with
    | .ok (tid, db1) => (.ok tid, db1)
    | .error e => (.error e, db)

/-- Same code under READ COMMITTED when a concurrent committer interleaves
between the probe statement and the rest: the probe sees the snapshot
dbProbe, every later statement sees dbRest.  With dbProbe = dbRest this is
definitionally postTransaction. -/
def postTransactionReadCommitted (dbProbe dbRest : Db)
    (cmd : PostTransactionCommand) (eventId transactionId : String) :
    Except LedgerError String × Db :=
  match idempotencyProbe dbProbe cmd.ledgerId cmd.idempotencyKey with
  | some aggId => (.ok aggId, dbRest)
  | none =>
    match postTransactionBody dbRest cmd eventId transactionId with
    | .ok (tid, db1) => (.ok tid, db1)
    | .error e => (.error e, dbRest)

/-! ## HTTP handler (Handler.PostTransaction) -/

structure PostTransactionResponse where
  transactionId : String
  status : String
deriving DecidableEq

inductive HandlerResult
  | ok (resp : PostTransactionResponse)
  | httpError (code : Nat) (msg : String)
deriving DecidableEq

/-- Handler.PostTransaction maps a service error to HTTP 400 with the error
text and success to HTTP 200 with status accepted. -/
def handleRespond : Except LedgerError String → HandlerResult
  | .ok tid => .ok { transactionId := tid, status := "accepted" }
  | .error e => .httpError 400 (ledgerErrorMessage e)

def handlePostTransaction (db : Db) (cmd : PostTransactionCommand)
    (eventId transactionId : String) : HandlerResult × Db :=
  let r := postTransaction db cmd eventId transactionId
  (handleRespond r.1, r.2)

/-! ## Projector (internal/projector/projector.go) -/

inductive ProjError
  | accountNotFound (code : String)
  | postingInsertFailed (amount : String)
  | invalidDirection (d : String)
  | invalidAmount (amount : String)
deriving DecidableEq

def sentinelUuid : String := "00000000-0000-0000-0000-000000000000"

/-- COALESCE((SELECT last_processed_event_id ...), all-zero uuid). -/
def projectorOffset (db : Db) : String :=
  (List.lookup "ledger" db.offsets).getD sentinelUuid

/-- INSERT ... ON CONFLICT (projector_name) DO UPDATE. -/
def offsetUpsert (offsets : List (String × String)) (eventId : String) :
    List (String × String) :=
  if (List.lookup "ledger" offsets).isSome then
    offsets.map (fun r => if r.1 == "ledger" then ("ledger", eventId) else r)
  else offsets ++ [("ledger", eventId)]

/-- ORDER BY created_at, id.  UUID column comparison is bytewise, which on
the hyphenated lowercase hex rendering coincides with string order. -/
def eventOrderLe (a b : Event) : Bool :=
  a.createdAt < b.createdAt || (a.createdAt == b.createdAt && strLeB a.id b.id)

/-- The SELECT of projectBatch: TransactionPosted events with id greater
than the stored offset (uuid comparison), in (created_at, id) order,
LIMIT 100. -/
def selectBatch (db : Db) : List Event :=
  (sortLe eventOrderLe
    (db.events.filter (fun e =>
      e.eventType == "TransactionPosted" && strLtB (projectorOffset db) e.id))).take 100

/-- Existence probe realised by INSERT ... ON CONFLICT (id, ledger_id)
DO NOTHING returning RowsAffected 0. -/
def txnExists (db : Db) (transactionId ledgerId : String) : Bool :=
  db.transactions.any (fun t => t.id == transactionId && t.ledgerId == ledgerId)

/-- Projector.updateAccountBalance: re-parse the amount with Rat.SetString,
negate unless the direction is credit, and add the FloatString(10)
rendering to the NUMERIC balance: the stored delta is the amount rounded
at the column scale. -/
def updateAccountBalance (db : Db) (accountId direction amountStr : String) :
    Except ProjError Db :=
  match ratSetString amountStr with
  | none => .error (.invalidAmount amountStr)
  | some q =>
    let finalAmount := if direction == "credit" then q else -q
    .ok { db with
            accounts := db.accounts.map (fun a =>
              if a.id == accountId then
                { a with balance := a.balance + ratRound10 finalAmount }
              else a) }

/-- One iteration of the postings loop of applyTransactionPosted: account
lookup by (ledger_id, code), posting insert (the NUMERIC(38,10) column
parses and rounds the amount string; the CHECK constraint restricts the
direction), then the balance update. -/
def applyPosting (db : Db) (ledgerId transactionId : String)
    (p : PostingInput) : Except ProjError Db :=
  match db.accounts.find? (fun a => a.ledgerId == ledgerId && a.code == p.accountCode) with
  | none => .error (.accountNotFound p.accountCode)
  | some acct =>
    match pgNumericParse p.amount with
    | none => .error (.postingInsertFailed p.amount)
    | some q =>
      if !(p.direction == "debit" || p.direction == "credit") then
        .error (.invalidDirection p.direction)
      else
        let db1 := { db with
          postings := db.postings ++
            [{ ledgerId := ledgerId
               transactionId := transactionId
               accountId := acct.id
               amount := ratRound10 q
               direction := p.direction }] }
        updateAccountBalance db1 acct.id p.direction p.amount

def applyPostings (db : Db) (ledgerId transactionId : String) :
    List PostingInput → Except ProjError Db
  | [] => .ok db
  | p :: ps =>
    match applyPosting db ledgerId transactionId p with
    | .error e => .error e
    | .ok db1 => applyPostings db1 ledgerId transactionId ps

/-- Projector.applyTransactionPosted: insert the transaction row with
amount literal 0 (ON CONFLICT (id, ledger_id) DO NOTHING); a conflict ends
the event with no further effect; otherwise process every posting. -/
def applyTransactionPosted (db : Db) (ledgerId : String) (payload : TxPayload) :
    Except ProjError Db :=
  if txnExists db payload.transactionId ledgerId then .ok db
  else
    let db1 := { db with
      transactions := db.transactions ++
        [{ id := payload.transactionId
           ledgerId := ledgerId
           externalId := payload.externalId
           amount := 0
           currency := payload.currency
           occurredAt := payload.occurredAt }] }
    applyPostings db1 ledgerId payload.transactionId payload.postings

def applyBatch (db : Db) : List Event → Except ProjError Db
  | [] => .ok db
  | e :: es =>
    match applyTransactionPosted db e.ledgerId e.payload with
    | .error err => .error err
    | .ok db1 => applyBatch db1 es

/-- Id of the last batch element, the loop variable maxEventID after the
processing loop. -/
def lastEventId : List Event → String
  | [] => sentinelUuid
  | [e] => e.id
  | _ :: es => lastEventId es

/-- Projector.projectBatch: one pass in one database transaction; an empty
batch commits unchanged, otherwise all events are applied in order and the
offset row is upserted to the last processed id. -/
def projectBatch (db : Db) : Except ProjError Db :=
  let batch := selectBatch db
  if batch.isEmpty then .ok db
  else
    match applyBatch db batch with
    | .error e => .error e
    | .ok db1 => .ok { db1 with offsets := offsetUpsert db1.offsets (lastEventId batch) }

/-- One tick of Projector.Run: an error aborts the pass, rolls back and
leaves the state unchanged. -/
def projectStep (db : Db) : Db :=
  match projectBatch db with
  | .ok db1 => db1
  | .error _ => db

def projectIter : Nat → Db → Db
  | 0, db => db
  | n + 1, db => projectIter n (projectStep db)

/-! ## Bytes, UTF-8 and JSON rendering of the stored payload

The events.payload column stores the json.Marshal rendering of the
payload map.  The webhook worker reads those bytes back verbatim; the
projector unmarshals them.  We keep the structured payload in the Event
row and recover the stored bytes with the deterministic encoder below
(json.Marshal of a map writes keys in sorted order and escapes the HTML
characters by default). -/

def utf8Char (c : Char) : List Nat :=
  let n := c.toNat
  if n < 128 then [n]
  else if n < 2048 then [192 + n / 64, 128 + n % 64]
  else if n < 65536 then [224 + n / 4096, 128 + n / 64 % 64, 128 + n % 64]
  else [240 + n / 262144, 128 + n / 4096 % 64, 128 + n / 64 % 64, 128 + n % 64]

def utf8Bytes (s : String) : List Nat := (s.data.map utf8Char).flatten

def hexDigitChar (n : Nat) : Char :=
  if n < 10 then Char.ofNat (48 + n) else Char.ofNat (87 + n)

def hexOfBytes (bs : List Nat) : String :=
  String.mk ((bs.map (fun b => [hexDigitChar (b / 16 % 16), hexDigitChar (b % 16)])).flatten)

def uHex4 (n : Nat) : String :=
  String.mk [hexDigitChar (n / 4096 % 16), hexDigitChar (n / 256 % 16),
    hexDigitChar (n / 16 % 16), hexDigitChar (n % 16)]

/-- encoding/json string escaping with the default EscapeHTML behaviour. -/
def jsonEscapeChar (c : Char) : String :=
  if c == '"' then "\\\""
  else if c == '\\' then "\\\\"
  else if c == '\n' then "\\n"
  else if c == '\r' then "\\r"
  else if c == '\t' then "\\t"
  else if c.toNat < 32 then "\\u" ++ uHex4 c.toNat
  else if c == '<' || c == '>' || c == '&' then "\\u" ++ uHex4 c.toNat
  else String.mk [c]

def jsonStr (s : String) : String :=
  "\"" ++ String.join (s.data.map jsonEscapeChar) ++ "\""

/-- json.Marshal of one PostingInput (struct tag field order). -/
def postingJson (p : PostingInput) : String :=
  "\x7b\"account_code\":" ++ jsonStr p.accountCode ++
    ",\"direction\":" ++ jsonStr p.direction ++
    ",\"amount\":" ++ jsonStr p.amount ++ "\x7d"

def joinComma : List String → String
  | [] => ""
  | [s] => s
  | s :: ss => s ++ "," ++ joinComma ss

/-- json.Marshal of the payload map (keys in sorted order). -/
def txPayloadJson (pl : TxPayload) : String :=
  "\x7b\"currency\":" ++ jsonStr pl.currency ++
    ",\"external_id\":" ++ jsonStr pl.externalId ++
    ",\"occurred_at\":" ++ jsonStr pl.occurredAt ++
    ",\"postings\":[" ++ joinComma (pl.postings.map postingJson) ++ "]" ++
    ",\"transaction_id\":" ++ jsonStr pl.transactionId ++ "\x7d"

/-- The stored payload bytes of an event row. -/
def txPayloadBytes (pl : TxPayload) : List Nat := utf8Bytes (txPayloadJson pl)

/-! ## SHA-256 and HMAC (crypto/sha256, crypto/hmac)

Words are naturals reduced modulo 2^32. -/

def w32 (n : Nat) : Nat := n % 4294967296

def rotr32 (n x : Nat) : Nat := w32 ((x >>> n) ||| (x <<< (32 - n)))

def not32 (x : Nat) : Nat := x ^^^ 4294967295

def shaCh (x y z : Nat) : Nat := (x &&& y) ^^^ (not32 x &&& z)

def shaMaj (x y z : Nat) : Nat := (x &&& y) ^^^ (x &&& z) ^^^ (y &&& z)

def shaS0 (x : Nat) : Nat := rotr32 2 x ^^^ rotr32 13 x ^^^ rotr32 22 x

def shaS1 (x : Nat) : Nat := rotr32 6 x ^^^ rotr32 11 x ^^^ rotr32 25 x

def shaG0 (x : Nat) : Nat := rotr32 7 x ^^^ rotr32 18 x ^^^ (x >>> 3)

def shaG1 (x : Nat) : Nat := rotr32 17 x ^^^ rotr32 19 x ^^^ (x >>> 10)

def shaK : List Nat :=
  [1116352408, 1899447441, 3049323471, 3921009573, 961987163, 1508970993,
   2453635748, 2870763221, 3624381080, 310598401, 607225278, 1426881987,
   1925078388, 2162078206, 2614888103, 3248222580, 3835390401, 4022224774,
   264347078, 604807628, 770255983, 1249150122, 1555081692, 1996064986,
   2554220882, 2821834349, 2952996808, 3210313671, 3336571891, 3584528711,
   113926993, 338241895, 666307205, 773529912, 1294757372, 1396182291,
   1695183700, 1986661051, 2177026350, 2456956037, 2730485921, 2820302411,
   3259730800, 3345764771, 3516065817, 3600352804, 4094571909, 275423344,
   430227734, 506948616, 659060556, 883997877, 958139571, 1322822218,
   1537002063, 1747873779, 1955562222, 2024104815, 2227730452, 2361852424,
   2428436474, 2756734187, 3204031479, 3329325298]

def shaInit : List Nat :=
  [1779033703, 3144134277, 1013904242, 2773480762,
   1359893119, 2600822924, 528734635, 1541459225]

/-- Extend the 16 message words to 64 (fuel-driven so that it reduces). -/
def shaExtend : Nat → List Nat → List Nat
  | 0, ws => ws
  | n + 1, ws =>
    let t := ws.length
    shaExtend n (ws ++
      [w32 (shaG1 (ws.getD (t - 2) 0) + ws.getD (t - 7) 0 +
        shaG0 (ws.getD (t - 15) 0) + ws.getD (t - 16) 0)])

/-- One compression round on the working variables. -/
def shaRound (st : List Nat) (kw : Nat × Nat) : List Nat :=
  match st with
  | [a, b, c, d, e, f, g, h] =>
    let t1 := w32 (h + shaS1 e + shaCh e f g + kw.1 + kw.2)
    let t2 := w32 (shaS0 a + shaMaj a b c)
    [w32 (t1 + t2), a, b, c, w32 (d + t1), e, f, g]
  | other => other

def shaCompress (h : List Nat) (blockWords : List Nat) : List Nat :=
  let ws := shaExtend 48 blockWords
  let st := (shaK.zip ws).foldl (fun s kw => shaRound s (kw.1, kw.2)) h
  (h.zip st).map (fun p => w32 (p.1 + p.2))

def bytesToWords : List Nat → List Nat
  | b0 :: b1 :: b2 :: b3 :: rest =>
    (b0 * 16777216 + b1 * 65536 + b2 * 256 + b3) :: bytesToWords rest
  | _ => []

/-- k big-endian bytes of n. -/
def natToBytesBE : Nat → Nat → List Nat
  | 0, _ => []
  | k + 1, n => natToBytesBE k (n / 256) ++ [n % 256]

def chunks64Aux : Nat → List Nat → List (List Nat)
  | 0, _ => []
  | _, [] => []
  | n + 1, l => l.take 64 :: chunks64Aux n (l.drop 64)

def sha256 (msg : List Nat) : List Nat :=
  let len := msg.length
  let padded := msg ++ [128] ++ List.replicate ((119 - len % 64) % 64) 0 ++
    natToBytesBE 8 (len * 8)
  let final := (chunks64Aux padded.length padded).foldl
    (fun h b => shaCompress h (bytesToWords b)) shaInit
  (final.map (natToBytesBE 4)).flatten

/-- crypto/hmac with SHA-256: hash long keys, zero-pad to the block size,
inner and outer pads 0x36 and 0x5c. -/
def hmacSha256 (key msg : List Nat) : List Nat :=
  let k0 := if 64 < key.length then sha256 key else key
  let k1 := k0 ++ List.replicate (64 - k0.length) 0
  sha256 ((k1.map (fun b => b ^^^ 92)) ++ sha256 ((k1.map (fun b => b ^^^ 54)) ++ msg))

/-! ## Webhook worker (webhook package) -/

/-- webhook.computeWebhookSignature: hex HMAC-SHA-256 of the payload under
the endpoint secret. -/
def computeWebhookSignature (secret payload : List Nat) : String :=
  hexOfBytes (hmacSha256 secret payload)

structure HttpRequest where
  url : String
  headers : List (String × String)
  body : List Nat
deriving DecidableEq

/-- Outcome of one send attempt, supplied by the environment: the request
build can fail (bad URL), the transport can fail (network, DNS, timeout),
or a response with a status code arrives. -/
inductive SendOutcome
  | buildFailure (msg : String)
  | netFailure (msg : String)
  | response (status : Nat)
deriving DecidableEq

structure SendResult where
  request : Option HttpRequest
  row : DeliveryRow
  shouldRetry : Bool
deriving DecidableEq

/-- The outgoing POST built by sendSingleWebhook. -/
def webhookRequest (ep : WebhookEndpoint) (payload : List Nat) : HttpRequest :=
  { url := ep.url
    headers :=
      [("Content-Type", "application/json"),
       ("X-Ledger-Signature", computeWebhookSignature (utf8Bytes ep.secret) payload),
       ("User-Agent", "LedgerKiro-Webhook/1.0")]
    body := payload }

/-- Worker.sendSingleWebhook: build and send the signed request, classify
the outcome (2xx and every status below 400 leave the initial success
classification; 5xx and transport failures are retryable; 4xx and build
failures are not), and log one delivery row for the current job attempt. -/
def sendSingleWebhook (ep : WebhookEndpoint) (eventId : String)
    (payload : List Nat) (attempt : Nat) (outcome : SendOutcome) : SendResult :=
  match outcome with
  | .buildFailure m =>
    { request := none
      row := { eventId := eventId, endpointId := ep.id,
               status := "non_retryable_error", attempt := attempt,
               httpStatus := 0, errorMessage := m }
      shouldRetry := false }
  | .netFailure m =>
    { request := some (webhookRequest ep payload)
      row := { eventId := eventId, endpointId := ep.id,
               status := "retryable_error", attempt := attempt,
               httpStatus := 0, errorMessage := m }
      shouldRetry := true }
  | .response s =>
    { request := some (webhookRequest ep payload)
      row := { eventId := eventId, endpointId := ep.id
               status :=
                 if 500 ≤ s then "retryable_error"
                 else if 400 ≤ s then "non_retryable_error"
                 else "success"
               attempt := attempt
               httpStatus := s
               errorMessage :=
                 if 500 ≤ s then "server error: " ++ toString s
                 else if 400 ≤ s then "client error: " ++ toString s
                 else "" }
      shouldRetry := 500 ≤ s }

def findEvent (db : Db) (eventId ledgerId : String) : Option Event :=
  db.events.find? (fun e => e.id == eventId && e.ledgerId == ledgerId)

def activeEndpoints (db : Db) (ledgerId : String) : List WebhookEndpoint :=
  db.webhookEndpoints.filter (fun w => w.ledgerId == ledgerId && w.isActive)

/-- The per-endpoint idempotency probe: a delivery row with status success
already exists for this (event, endpoint). -/
def alreadyDelivered (rows : List DeliveryRow) (eventId endpointId : String) : Bool :=
  rows.any (fun r =>
    r.eventId == eventId && r.endpointId == endpointId && r.status == "success")

/-- Per-endpoint behaviour of the environment during one job run: the
idempotency SELECT can fail transiently, otherwise a send outcome. -/
inductive EndpointCondition
  | checkFailure
  | send (outcome : SendOutcome)

/-- The fan-out loop of Worker.Work: a failed idempotency check counts as
a retryable failure and skips the endpoint; an already delivered endpoint
is skipped; otherwise the webhook is sent and its delivery row inserted
immediately (logDelivery runs outside any transaction). -/
def workLoop (eventId : String) (payload : List Nat) (attempt : Nat)
    (conds : String → EndpointCondition) :
    List WebhookEndpoint → Nat → List SendResult → Db → Nat × List SendResult × Db
  | [], fails, atts, d => (fails, atts, d)
  | ep :: rest, fails, atts, d =>
    match conds ep.id with
    | .checkFailure => workLoop eventId payload attempt conds rest (fails + 1) atts d
    | .send o =>
      if alreadyDelivered d.webhookDeliveries eventId ep.id then
        workLoop eventId payload attempt conds rest fails atts d
      else
        let r := sendSingleWebhook ep eventId payload attempt o
        workLoop eventId payload attempt conds rest
          (if r.shouldRetry then fails + 1 else fails) (atts ++ [r])
          { d with webhookDeliveries := d.webhookDeliveries ++ [r.row] }

structure WorkOutput where
  result : Except String Unit
  attempts : List SendResult
  db : Db

/-- Worker.Work: load the event payload (a miss is an error), load the
active endpoints (none means immediate completion), fan out, and return an
error to the queue exactly when the retryable-failure counter is
positive. -/
def doWork (db : Db) (args : WebhookArgs) (attempt : Nat)
    (conds : String → EndpointCondition) : WorkOutput :=
  match findEvent db args.eventId args.ledgerId with
  | none => { result := .error "event not found", attempts := [], db := db }
  | some e =>
    let payload := txPayloadBytes e.payload
    let eps := activeEndpoints db args.ledgerId
    if eps.isEmpty then { result := .ok (), attempts := [], db := db }
    else
      { result :=
          if 0 < (workLoop args.eventId payload attempt conds eps 0 [] db).1 then
            .error "webhook delivery had retryable failures"
          else .ok ()
        attempts := (workLoop args.eventId payload attempt conds eps 0 [] db).2.1
        db := (workLoop args.eventId payload attempt conds eps 0 [] db).2.2 }

def amountVal (p : PostingInput) : ℚ := (ratSetString p.amount).getD 0

def debitTotal (ps : List PostingInput) : ℚ :=
  ((ps.filter (fun p => p.direction == "debit")).map amountVal).sum

def creditTotal (ps : List PostingInput) : ℚ :=
  ((ps.filter (fun p => p.direction == "credit")).map amountVal).sum

theorem validateLoop_ok (accounts : List (String × Account)) :
    ∀ (ps : List PostingInput) (d c : ℚ) (r : ℚ × ℚ),
    validateLoop accounts ps d c = .ok r →
    ((∀ p ∈ ps, (List.lookup p.accountCode accounts).isSome = true ∧
        (p.direction = "debit" ∨ p.direction = "credit") ∧
        ∃ q : ℚ, ratSetString p.amount = some q ∧ 0 < q) ∧
      r = (d + debitTotal ps, c + creditTotal ps)) := by
  intro ps
  induction ps with
  | nil =>
    intro d c r h
    simp only [validateLoop] at h
    cases h
    simp [debitTotal, creditTotal]
  | cons p ps ih =>
    intro d c r h
    simp only [validateLoop] at h
    split at h
    · exact absurd h (by simp)
    · split at h
      · exact absurd h (by simp)
      · rename_i hacc hdir
        have hdir2 : p.direction = "debit" ∨ p.direction = "credit" := by
          rcases Bool.and_eq_false_iff.mp (Bool.not_eq_true _ |>.mp hdir) with h1 | h1
          · exact Or.inl (by simpa using h1)
          · exact Or.inr (by simpa using h1)
        have hacc2 : (List.lookup p.accountCode accounts).isSome = true := by
          simpa [Option.isNone_iff_eq_none, Option.isSome_iff_ne_none] using hacc
        split at h
        · exact absurd h (by simp)
        · rename_i q hq
          by_cases hpos : q ≤ 0
          · rw [if_pos hpos] at h; exact absurd h (by simp)
          · rw [if_neg hpos] at h
            have hpos2 : 0 < q := lt_of_not_le hpos
            by_cases hdeb : (p.direction == "debit") = true
            · rw [if_pos hdeb] at h
              obtain ⟨hps, hr⟩ := ih (d + q) c r h
              have hdebP : p.direction = "debit" := by simpa using hdeb
              have hncred : (p.direction == "credit") = false := by
                simp [hdebP]
              have hd : debitTotal (p :: ps) = q + debitTotal ps := by
                simp [debitTotal, List.filter_cons, hdeb, amountVal, hq]
              have hc : creditTotal (p :: ps) = creditTotal ps := by
                simp [creditTotal, List.filter_cons, hncred]
              refine ⟨?_, ?_⟩
              · intro x hx
                rcases List.mem_cons.mp hx with rfl | hx
                · exact ⟨hacc2, hdir2, q, hq, hpos2⟩
                · exact hps x hx
              · rw [hr, hd, hc]
                simp only [Prod.mk.injEq]
                constructor <;> ring_nf
            · rw [if_neg hdeb] at h
              obtain ⟨hps, hr⟩ := ih d (c + q) r h
              have hcredP : p.direction = "credit" := by
                rcases hdir2 with h1 | h1
                · exact absurd (by simp [h1]) hdeb
                · exact h1
              have hncred : (p.direction == "credit") = true := by simp [hcredP]
              have hndeb : (p.direction == "debit") = false := by simp [hcredP]
              have hd : debitTotal (p :: ps) = debitTotal ps := by
                simp [debitTotal, List.filter_cons, hndeb]
              have hc : creditTotal (p :: ps) = q + creditTotal ps := by
                simp [creditTotal, List.filter_cons, hncred, amountVal, hq]
              refine ⟨?_, ?_⟩
              · intro x hx
                rcases List.mem_cons.mp hx with rfl | hx
                · exact ⟨hacc2, hdir2, q, hq, hpos2⟩
                · exact hps x hx
              · rw [hr, hd, hc]
                simp only [Prod.mk.injEq]
                constructor <;> ring_nf

theorem validateLoop_complete (accounts : List (String × Account)) :
    ∀ (ps : List PostingInput) (d c : ℚ),
    (∀ p ∈ ps, (List.lookup p.accountCode accounts).isSome = true ∧
        (p.direction = "debit" ∨ p.direction = "credit") ∧
        ∃ q : ℚ, ratSetString p.amount = some q ∧ 0 < q) →
    validateLoop accounts ps d c = .ok (d + debitTotal ps, c + creditTotal ps) := by
  intro ps
  induction ps with
  | nil =>
    intro d c _
    simp [validateLoop, debitTotal, creditTotal]
  | cons p ps ih =>
    intro d c hall
    obtain ⟨hacc, hdir, q, hq, hpos⟩ := hall p (List.mem_cons_self p ps)
    have hrest := fun x hx => hall x (List.mem_cons_of_mem p hx)
    have haccN : (List.lookup p.accountCode accounts).isNone = false := by
      cases hL : List.lookup p.accountCode accounts with
      | none => rw [hL] at hacc; simp at hacc
      | some a => rfl
    have hdirB : (p.direction != "debit" && p.direction != "credit") = false := by
      rcases hdir with h1 | h1 <;> simp [h1]
    simp only [validateLoop, haccN, Bool.false_eq_true, if_false, hdirB, hq]
    have hposB : ¬(q ≤ 0) := not_le.mpr hpos
    rw [if_neg hposB]
    rcases hdir with h1 | h1
    · have hdeb : (p.direction == "debit") = true := by simp [h1]
      have hncred : (p.direction == "credit") = false := by simp [h1]
      rw [if_pos hdeb]
      have := ih (d + q) c hrest
      rw [this]
      have hd : debitTotal (p :: ps) = q + debitTotal ps := by
        simp [debitTotal, List.filter_cons, hdeb, amountVal, hq]
      have hc : creditTotal (p :: ps) = creditTotal ps := by
        simp [creditTotal, List.filter_cons, hncred]
      rw [hd, hc]
      congr 2
      ring_nf
    · have hncred : (p.direction == "credit") = true := by simp [h1]
      by_cases hdeb : (p.direction == "debit") = true
      · have : p.direction = "debit" := by simpa using hdeb
        rw [this] at h1
        exact absurd h1 (by decide)
      · rw [if_neg hdeb]
        have := ih d (c + q) hrest
        rw [this]
        have hd : debitTotal (p :: ps) = debitTotal ps := by
          have hndeb : (p.direction == "debit") = false := Bool.eq_false_iff.mpr (by simpa using hdeb)
          simp [debitTotal, List.filter_cons, hndeb]
        have hc : creditTotal (p :: ps) = q + creditTotal ps := by
          simp [creditTotal, List.filter_cons, hncred, amountVal, hq]
        rw [hd, hc]
        congr 2
        ring_nf

def claimC1Conditions (cmd : PostTransactionCommand) : Prop :=
  2 ≤ cmd.postings.length ∧
  (∀ p ∈ cmd.postings, p.direction = "debit" ∨ p.direction = "credit") ∧
  (∀ p ∈ cmd.postings, ∃ q : ℚ, ratSetString p.amount = some q ∧ 0 < q) ∧
  debitTotal cmd.postings = creditTotal cmd.postings

/-- C1: with every referenced account resolvable (as guaranteed at the
call site by loadAndLockAccounts), validateDoubleEntry accepts exactly
the commands satisfying the four claimed conditions. -/
theorem claim_C1 (cmd : PostTransactionCommand) (accounts : List (String × Account))
    (hacc : ∀ p ∈ cmd.postings, (List.lookup p.accountCode accounts).isSome = true) :
    validateDoubleEntry cmd accounts = .ok () ↔ claimC1Conditions cmd := by
  unfold validateDoubleEntry claimC1Conditions
  by_cases hlen : cmd.postings.length < 2
  · rw [if_pos hlen]
    constructor
    · intro h; exact absurd h (by simp)
    · rintro ⟨h2, -⟩; exact absurd h2 (not_le.mpr hlen)
  · rw [if_neg hlen]
    have hlen2 : 2 ≤ cmd.postings.length := not_lt.mp hlen
    split
    · rename_i e hv
      constructor
      · intro h; exact absurd h (by simp)
      · rintro ⟨-, hdir, hamt, -⟩
        have hcmp := validateLoop_complete accounts cmd.postings 0 0
          (fun p hp => ⟨hacc p hp, hdir p hp, hamt p hp⟩)
        rw [hv] at hcmp
        exact absurd hcmp (by simp)
    · rename_i d c hv
      obtain ⟨hps, hr⟩ := validateLoop_ok accounts cmd.postings 0 0 (d, c) hv
      simp only [Prod.mk.injEq, zero_add] at hr
      constructor
      · intro h
        by_cases hdc : (d == c) = true
        · refine ⟨hlen2, fun p hp => (hps p hp).2.1, fun p hp => (hps p hp).2.2, ?_⟩
          rw [← hr.1, ← hr.2]
          exact beq_iff_eq.mp hdc
        · rw [if_neg hdc] at h
          exact absurd h (by simp)
      · rintro ⟨-, -, -, hsum⟩
        have hdc : (d == c) = true := beq_iff_eq.mpr (by rw [hr.1, hr.2]; exact hsum)
        rw [if_pos hdc]

deriving instance DecidableEq for Except

def cashAccount : Account :=
  { id := "acc-cash", ledgerId := "L1", code := "cash", type := "asset", balance := 0 }

def revenueAccount : Account :=
  { id := "acc-rev", ledgerId := "L1", code := "revenue", type := "revenue", balance := 0 }

def seedDb : Db :=
  { events := [], jobs := [], accounts := [cashAccount, revenueAccount]
    transactions := [], postings := [], offsets := []
    webhookEndpoints := [], webhookDeliveries := [], clock := 0 }

def seedCmd : PostTransactionCommand :=
  { ledgerId := "L1", externalId := "ord-1", idempotencyKey := "k1", currency := "USD"
    occurredAt := "2024-01-01T12:00:00Z"
    postings := [{ accountCode := "cash", direction := "debit", amount := "100.00" },
                 { accountCode := "revenue", direction := "credit", amount := "100.00" }] }

def c1Accounts : List (String × Account) :=
  [("cash", cashAccount), ("revenue", revenueAccount)]

unseal Rat.add Rat.mul Rat.sub Rat.inv in
/-- C1 witness: the theorem applied to the balanced two-posting seed
command, hypothesis discharged by evaluation. -/
theorem claim_C1_witness : claimC1Conditions seedCmd :=
  (claim_C1 seedCmd c1Accounts (by decide)).mp (by decide)

/-! ## Shape of a fresh accept (towards C2, C7) -/

theorem postTransactionBody_ok (db : Db) (cmd : PostTransactionCommand)
    (eid tid tid' : String) (db' : Db)
    (h : postTransactionBody db cmd eid tid = .ok (tid', db')) :
    tid' = tid ∧
    db' = { db with
      events := db.events ++ [postedEvent db cmd eid tid]
      jobs := db.jobs ++ [{ eventId := eid, ledgerId := cmd.ledgerId }]
      clock := db.clock + 1 } := by
  unfold postTransactionBody at h
  split at h
  · exact absurd h (by simp)
  · split at h
    · exact absurd h (by simp)
    · dsimp only at h
      by_cases hc : eventInsertConflict db (postedEvent db cmd eid tid) = true
      · rw [if_pos hc] at h
        exact absurd h (by simp)
      · rw [if_neg hc] at h
        have h3 := Except.ok.inj h
        injection h3 with h4 h5
        exact ⟨h4.symm, h5.symm⟩

/-- C2 (amended): on a fresh accept (probe miss) exactly the new event row
and the one outbox job referencing its EventID and LedgerID are committed,
with no other table touched; on a probe hit the stored AggregateID is
returned and nothing is written; on any error nothing is written. -/
theorem claim_C2 (db : Db) (cmd : PostTransactionCommand) (eid tid : String) :
    match idempotencyProbe db cmd.ledgerId cmd.idempotencyKey,
      postTransaction db cmd eid tid with
    | none, (Except.ok tid', db') =>
        tid' = tid ∧
        db'.events = db.events ++ [postedEvent db cmd eid tid] ∧
        db'.jobs = db.jobs ++ [{ eventId := eid, ledgerId := cmd.ledgerId }] ∧
        db'.accounts = db.accounts ∧ db'.transactions = db.transactions ∧
        db'.postings = db.postings
    | some aggId, (res, db') => res = Except.ok aggId ∧ db' = db
    | none, (Except.error _, db') => db' = db := by
  cases hpr : idempotencyProbe db cmd.ledgerId cmd.idempotencyKey with
  | some a =>
    have hpt : postTransaction db cmd eid tid = (.ok a, db) := by
      unfold postTransaction; rw [hpr]
    rw [hpt]
    exact ⟨rfl, rfl⟩
  | none =>
    cases hb : postTransactionBody db cmd eid tid with
    | ok pr =>
      obtain ⟨tid2, db2⟩ := pr
      obtain ⟨h1, h2⟩ := postTransactionBody_ok db cmd eid tid tid2 db2 hb
      have hpt : postTransaction db cmd eid tid = (.ok tid2, db2) := by
        unfold postTransaction; rw [hpr, hb]
      rw [hpt, h1, h2]
      exact ⟨rfl, rfl, rfl, rfl, rfl, rfl⟩
    | error e =>
      have hpt : postTransaction db cmd eid tid = (.error e, db) := by
        unfold postTransaction; rw [hpr, hb]
      rw [hpt]

/-- Sum of credit posting amounts recorded against an account id. -/
def creditSumOf (ps : List PostingRow) (aid : String) : ℚ :=
  ((ps.filter (fun p => p.accountId == aid && p.direction == "credit")).map
    (fun p => p.amount)).sum

/-- Sum of debit posting amounts recorded against an account id. -/
def debitSumOf (ps : List PostingRow) (aid : String) : ℚ :=
  ((ps.filter (fun p => p.accountId == aid && p.direction == "debit")).map
    (fun p => p.amount)).sum

/-- The balance law over the read model: every account balance equals the
credit total minus the debit total over the stored posting rows. -/
def balanceLaw (db : Db) : Prop :=
  ∀ a ∈ db.accounts,
    a.balance = creditSumOf db.postings a.id - debitSumOf db.postings a.id

/-- The schema invariant UNIQUE (ledger_id, idempotency_key). -/
def eventKeysUnique (db : Db) : Prop :=
  ∀ e1 ∈ db.events, ∀ e2 ∈ db.events,
    e1.ledgerId = e2.ledgerId → e1.idempotencyKey = e2.idempotencyKey → e1 = e2

def countEventsWithKey (db : Db) (ledgerId key : String) : Nat :=
  (db.events.filter (fun e =>
    e.ledgerId == ledgerId && e.idempotencyKey == key)).length

def c2ReplayDb : Db := (postTransaction seedDb seedCmd "e1" "t1").2

unseal Rat.add Rat.mul Rat.sub Rat.inv in
/-- C2 counterexample: after one accepted posting with key k1, the same
command runs again; PostTransaction returns a transaction id without error
yet commits no new event row and no outbox job. -/
theorem claim_C2_cex :
    (postTransaction c2ReplayDb seedCmd "e2" "t2").1 = .ok "t1" ∧
    (postTransaction c2ReplayDb seedCmd "e2" "t2").2 = c2ReplayDb ∧
    c2ReplayDb.events.length = 1 ∧ c2ReplayDb.jobs.length = 1 := by
  decide

def emptyKeyCmd1 : PostTransactionCommand :=
  { seedCmd with idempotencyKey := "", externalId := "E1" }

def emptyKeyCmd2 : PostTransactionCommand :=
  { seedCmd with
      idempotencyKey := ""
      externalId := "E2"
      postings := [{ accountCode := "cash", direction := "debit", amount := "7.00" },
                   { accountCode := "revenue", direction := "credit", amount := "7.00" }] }

def emptyKeyDb : Db := (postTransaction seedDb emptyKeyCmd1 "e1" "t1").2

unseal Rat.add Rat.mul Rat.sub Rat.inv in
/-- C3: evaluation of the code at the failing input.  A first command with
an empty idempotency key is accepted and its event is stored with key "".
A second, different command with an empty key then matches the probe and
gets the first transaction id back, with nothing appended: an empty key
does cause PostTransaction to return an earlier transaction id. -/
theorem claim_C3 :
    (postTransaction seedDb emptyKeyCmd1 "e1" "t1").1 = .ok "t1" ∧
    emptyKeyDb.events.length = 1 ∧
    emptyKeyCmd2.idempotencyKey = "" ∧
    emptyKeyCmd2.postings ≠ emptyKeyCmd1.postings ∧
    postTransaction emptyKeyDb emptyKeyCmd2 "e2" "t2" = (.ok "t1", emptyKeyDb) := by
  decide

/-- C7 (amended): when the probe saw no event for the key but a concurrent
call committed one before the insert (READ COMMITTED interleaving), the
insert hits the uniqueness conflict, the whole call returns that error
with no state change, and the handler surfaces HTTP 400 — not the winning
call's accepted response. -/
theorem claim_C7 (dbProbe dbRest : Db) (cmd : PostTransactionCommand)
    (eid tid : String)
    (hprobe : idempotencyProbe dbProbe cmd.ledgerId cmd.idempotencyKey = none)
    (hconflict : eventInsertConflict dbRest (postedEvent dbRest cmd eid tid) = true)
    (hok : ∃ accounts, loadAndLockAccounts dbRest cmd.ledgerId cmd.postings = .ok accounts ∧
      validateDoubleEntry cmd accounts = .ok ()) :
    postTransactionReadCommitted dbProbe dbRest cmd eid tid =
      (.error .uniqueViolation, dbRest) ∧
    handleRespond (.error .uniqueViolation) =
      .httpError 400 (ledgerErrorMessage .uniqueViolation) := by
  obtain ⟨accounts, hacc, hval⟩ := hok
  have hbody : postTransactionBody dbRest cmd eid tid = .error .uniqueViolation := by
    unfold postTransactionBody
    simp only [hacc, hval, hconflict, ite_true]
  unfold postTransactionReadCommitted
  rw [hprobe, hbody]
  exact ⟨rfl, rfl⟩

def c7WinnerDb : Db := (postTransaction seedDb seedCmd "eW" "tW").2

unseal Rat.add Rat.mul Rat.sub Rat.inv in
/-- C7 witness: the amended theorem applied to the concrete race in which
the winner committed key k1 first; the loser gets the conflict error. -/
theorem claim_C7_witness :
    postTransactionReadCommitted seedDb c7WinnerDb seedCmd "eL" "tL" =
      (.error .uniqueViolation, c7WinnerDb) ∧
    handleRespond (.error .uniqueViolation) =
      .httpError 400 (ledgerErrorMessage .uniqueViolation) :=
  claim_C7 seedDb c7WinnerDb seedCmd "eL" "tL" (by decide) (by decide)
    ⟨c1Accounts, by decide, by decide⟩

unseal Rat.add Rat.mul Rat.sub Rat.inv in
/-- C7 counterexample: at the same concrete race, the loser's response
differs from the winner's accepted response carrying the winning
transaction id, refuting the claim that the conflict is surfaced as a hit
on the idempotency probe; exactly one event row exists for the key. -/
theorem claim_C7_cex :
    postTransactionReadCommitted seedDb c7WinnerDb seedCmd "eL" "tL" =
      (.error .uniqueViolation, c7WinnerDb) ∧
    handleRespond (postTransactionReadCommitted seedDb c7WinnerDb seedCmd "eL" "tL").1 ≠
      handleRespond (.ok "tW") ∧
    countEventsWithKey c7WinnerDb "L1" "k1" = 1 := by
  decide

/-! ## C10: the probe decides before locking and validation -/

theorem find_of_unique {α : Type} (l : List α) (p : α → Bool) (e : α)
    (he : e ∈ l) (hpe : p e = true) (huniq : ∀ x ∈ l, p x = true → x = e) :
    l.find? p = some e := by
  induction l with
  | nil => cases he
  | cons a l ih =>
    by_cases hpa : p a = true
    · have : a = e := huniq a (List.mem_cons_self a l) hpa
      subst this
      simp [List.find?, hpa]
    · have hpaf : p a = false := Bool.eq_false_iff.mpr hpa
      have hne : e ≠ a := fun h => hpa (h ▸ hpe)
      have he2 : e ∈ l := by
        rcases List.mem_cons.mp he with h | h
        · exact absurd h hne
        · exact h
      rw [List.find?]
      rw [hpaf]
      exact ih he2 (fun x hx hpx => huniq x (List.mem_cons_of_mem a hx) hpx)

/-- C10: the idempotency probe runs first and compares only (LedgerID,
IdempotencyKey); whenever a stored event with the command key exists, the
handler answers HTTP 200 accepted with that event's AggregateID and writes
nothing, for every command body — including commands whose currency,
occurred-at or postings differ from the original or would fail validation
on their own. -/
theorem claim_C10 (db : Db) (cmd : PostTransactionCommand) (eid tid : String)
    (e : Event) (he : e ∈ db.events) (hl : e.ledgerId = cmd.ledgerId)
    (hk : e.idempotencyKey = cmd.idempotencyKey)
    (_hne : cmd.idempotencyKey ≠ "") (huniq : eventKeysUnique db) :
    handlePostTransaction db cmd eid tid =
      (HandlerResult.ok { transactionId := e.aggregateId, status := "accepted" }, db) := by
  have hfind : db.events.find?
      (fun x => x.ledgerId == cmd.ledgerId && x.idempotencyKey == cmd.idempotencyKey) = some e := by
    apply find_of_unique
    · exact he
    · simp [hl, hk]
    · intro x hx hpx
      simp only [Bool.and_eq_true, beq_iff_eq] at hpx
      exact huniq x hx e he (hpx.1.trans hl.symm) (hpx.2.trans hk.symm)
  have hprobe : idempotencyProbe db cmd.ledgerId cmd.idempotencyKey = some e.aggregateId := by
    unfold idempotencyProbe
    rw [hfind]
    rfl
  unfold handlePostTransaction postTransaction
  rw [hprobe]
  rfl

/-- Executable form of the uniqueness invariant, for witnesses. -/
def eventKeysUniqueB (db : Db) : Bool :=
  db.events.all (fun e1 => db.events.all (fun e2 =>
    !(e1.ledgerId == e2.ledgerId && e1.idempotencyKey == e2.idempotencyKey) || e1 == e2))

theorem eventKeysUnique_of_B (db : Db) (h : eventKeysUniqueB db = true) :
    eventKeysUnique db := by
  intro e1 h1 e2 h2 hl hk
  have h3 := List.all_eq_true.mp (List.all_eq_true.mp h e1 h1) e2 h2
  have hab : (e1.ledgerId == e2.ledgerId && e1.idempotencyKey == e2.idempotencyKey) = true := by
    simp [hl, hk]
  rw [hab] at h3
  simp only [Bool.not_true, Bool.false_or] at h3
  exact beq_iff_eq.mp h3

def divergentCmd : PostTransactionCommand :=
  { ledgerId := "L1", externalId := "other", idempotencyKey := "k1", currency := "EUR"
    occurredAt := "2030-12-31T00:00:00Z"
    postings := [{ accountCode := "cash", direction := "debit", amount := "1.00" }] }

unseal Rat.add Rat.mul Rat.sub Rat.inv in
/-- C10 witness: a replay of key k1 whose single unbalanced posting and
different currency would fail validation on their own still gets the
stored transaction id t1 with status accepted and no write. -/
theorem claim_C10_witness :
    handlePostTransaction c2ReplayDb divergentCmd "e5" "t5" =
      (HandlerResult.ok { transactionId := "t1", status := "accepted" }, c2ReplayDb) :=
  claim_C10 c2ReplayDb divergentCmd "e5" "t5"
    (postedEvent seedDb seedCmd "e1" "t1")
    (by decide) (by decide) (by decide) (by decide)
    (eventKeysUnique_of_B c2ReplayDb (by decide))

/-! ## Projector replay idempotency (C6) -/

theorem updateAccountBalance_ok (db : Db) (aid dir amt : String) (db' : Db)
    (h : updateAccountBalance db aid dir amt = .ok db') :
    db'.transactions = db.transactions ∧ db'.postings = db.postings ∧
    db'.accounts = db.accounts.map (fun a =>
      if a.id == aid then
        { a with balance := a.balance +
            ratRound10 (if dir == "credit" then (ratSetString amt).getD 0
              else -((ratSetString amt).getD 0)) }
      else a) := by
  unfold updateAccountBalance at h
  split at h
  · exact absurd h (by simp)
  · rename_i q hq
    have h2 := Except.ok.inj h
    subst h2
    refine ⟨rfl, rfl, ?_⟩
    rw [hq]
    rfl

theorem applyPosting_transactions (db : Db) (lid tid : String) (p : PostingInput)
    (db' : Db) (h : applyPosting db lid tid p = .ok db') :
    db'.transactions = db.transactions := by
  unfold applyPosting at h
  split at h
  · exact absurd h (by simp)
  · split at h
    · exact absurd h (by simp)
    · split at h
      · exact absurd h (by simp)
      · exact (updateAccountBalance_ok _ _ _ _ _ h).1

theorem applyPostings_transactions (lid tid : String) :
    ∀ (ps : List PostingInput) (db db' : Db),
    applyPostings db lid tid ps = .ok db' → db'.transactions = db.transactions := by
  intro ps
  induction ps with
  | nil =>
    intro db db' h
    simp only [applyPostings] at h
    cases h
    rfl
  | cons p ps ih =>
    intro db db' h
    simp only [applyPostings] at h
    split at h
    · exact absurd h (by simp)
    · rename_i db1 h1
      rw [ih db1 db' h, applyPosting_transactions db lid tid p db1 h1]

theorem applyTransactionPosted_txnExists (db : Db) (lid : String) (pl : TxPayload)
    (db' : Db) (h : applyTransactionPosted db lid pl = .ok db') :
    txnExists db' pl.transactionId lid = true := by
  unfold applyTransactionPosted at h
  split at h
  · rename_i hex
    cases h
    exact hex
  · rename_i hex
    have ht := applyPostings_transactions lid pl.transactionId pl.postings _ db' h
    unfold txnExists
    rw [ht]
    simp [txnExists, List.any_append]

/-- C6: applying a TransactionPosted event whose transaction row already
exists is a no-op, so a successful application followed by a replay of the
same event leaves the read models exactly as after the first application. -/
theorem claim_C6 (db : Db) (lid : String) (pl : TxPayload) (db' : Db)
    (h : applyTransactionPosted db lid pl = .ok db') :
    applyTransactionPosted db' lid pl = .ok db' := by
  have hex := applyTransactionPosted_txnExists db lid pl db' h
  unfold applyTransactionPosted
  rw [if_pos hex]

def c6Payload : TxPayload :=
  { transactionId := "t1", externalId := "ord-1", currency := "USD"
    occurredAt := "2024-01-01T12:00:00Z"
    postings := [{ accountCode := "cash", direction := "debit", amount := "100.00" },
                 { accountCode := "revenue", direction := "credit", amount := "100.00" }] }

def c6AppliedDb : Db :=
  match applyTransactionPosted seedDb "L1" c6Payload with
  | .ok d => d
  | .error _ => seedDb

unseal Rat.add Rat.mul Rat.sub Rat.inv in
/-- C6 witness: the theorem applied to the seed read model and the
balanced two-posting event; the replayed application returns the state of
the first application unchanged. -/
theorem claim_C6_witness :
    applyTransactionPosted c6AppliedDb "L1" c6Payload = .ok c6AppliedDb :=
  claim_C6 seedDb "L1" c6Payload c6AppliedDb (by decide)

/-! ## Balance law preservation (C4) -/

theorem creditSumOf_append (ps : List PostingRow) (r : PostingRow) (aid : String) :
    creditSumOf (ps ++ [r]) aid = creditSumOf ps aid +
      (if r.accountId == aid && r.direction == "credit" then r.amount else 0) := by
  unfold creditSumOf
  rw [List.filter_append, List.map_append, List.sum_append]
  by_cases hc : (r.accountId == aid && r.direction == "credit") = true
  · simp [List.filter_cons, hc]
  · simp [List.filter_cons, hc]

theorem debitSumOf_append (ps : List PostingRow) (r : PostingRow) (aid : String) :
    debitSumOf (ps ++ [r]) aid = debitSumOf ps aid +
      (if r.accountId == aid && r.direction == "debit" then r.amount else 0) := by
  unfold debitSumOf
  rw [List.filter_append, List.map_append, List.sum_append]
  by_cases hc : (r.accountId == aid && r.direction == "debit") = true
  · simp [List.filter_cons, hc]
  · simp [List.filter_cons, hc]

theorem applyPosting_balanceLaw (db : Db) (lid tid : String) (p : PostingInput)
    (db' : Db) (h : applyPosting db lid tid p = .ok db') (hlaw : balanceLaw db) :
    balanceLaw db' := by
  unfold applyPosting at h
  split at h
  · exact absurd h (by simp)
  · rename_i acct hfind
    split at h
    · exact absurd h (by simp)
    · rename_i q hq
      split at h
      · exact absurd h (by simp)
      · rename_i hdirB
        have himp : ¬p.direction = "debit" → p.direction = "credit" := by
          simpa using hdirB
        have hdir : p.direction = "debit" ∨ p.direction = "credit" := by
          by_cases hdd : p.direction = "debit"
          · exact Or.inl hdd
          · exact Or.inr (himp hdd)
        obtain ⟨ht, hp, ha⟩ := updateAccountBalance_ok _ _ _ _ _ h
        have hrat : ratSetString p.amount = some q := ratSetString_of_pg _ _ hq
        have hval : (ratSetString p.amount).getD 0 = q := by rw [hrat]; rfl
        rw [hval] at ha
        have hp2 : db'.postings = db.postings ++
            [{ ledgerId := lid, transactionId := tid, accountId := acct.id,
               amount := ratRound10 q, direction := p.direction }] := hp
        intro a0 ha0
        rw [ha] at ha0
        obtain ⟨a, haMem, rfl⟩ := List.mem_map.mp ha0
        rw [hp2, creditSumOf_append, debitSumOf_append]
        have hbal := hlaw a haMem
        by_cases hid : (a.id == acct.id) = true
        · have hidEq : a.id = acct.id := beq_iff_eq.mp hid
          have hsymm : (acct.id == a.id) = true := beq_iff_eq.mpr hidEq.symm
          rcases hdir with hdd | hdc
          · have hc1 : (p.direction == "credit") = false := by simp [hdd]
            have hc2 : (p.direction == "debit") = true := by simp [hdd]
            have hfin : (if (p.direction == "credit") = true then q else -q) = -q := by
              rw [hc1]; simp
            simp only [if_pos hid, hfin, hsymm, hc1, hc2, Bool.and_true, Bool.and_false,
              Bool.true_and, Bool.false_and, if_true, if_false, Bool.false_eq_true,
              ite_true, ite_false]
            rw [ratRound10_neg, hbal]
            ring_nf
          · have hc1 : (p.direction == "credit") = true := by simp [hdc]
            have hc2 : (p.direction == "debit") = false := by simp [hdc]
            have hfin : (if (p.direction == "credit") = true then q else -q) = q := by
              rw [hc1]; simp
            simp only [if_pos hid, hfin, hsymm, hc1, hc2, Bool.and_true, Bool.and_false,
              Bool.true_and, Bool.false_and, if_true, if_false, Bool.false_eq_true,
              ite_true, ite_false]
            rw [hbal]
            ring_nf
        · have hidNe : a.id ≠ acct.id := by simpa using hid
          have hsymm : (acct.id == a.id) = false :=
            beq_eq_false_iff_ne .. |>.mpr (Ne.symm hidNe)
          simp only [if_neg hid, hsymm, Bool.false_and, if_false, Bool.false_eq_true,
            ite_false]
          rw [hbal]
          ring_nf

theorem applyPostings_balanceLaw (lid tid : String) :
    ∀ (ps : List PostingInput) (db db' : Db),
    applyPostings db lid tid ps = .ok db' → balanceLaw db → balanceLaw db' := by
  intro ps
  induction ps with
  | nil =>
    intro db db' h hlaw
    simp only [applyPostings] at h
    cases h
    exact hlaw
  | cons p ps ih =>
    intro db db' h hlaw
    simp only [applyPostings] at h
    split at h
    · exact absurd h (by simp)
    · rename_i db1 h1
      exact ih db1 db' h (applyPosting_balanceLaw db lid tid p db1 h1 hlaw)

/-- C4 (amended): a successful application of a TransactionPosted event
preserves the balance law of the read model.  Each posting stores its
amount rounded at the NUMERIC(38,10) column scale and adds the identically
rounded signed amount (credit positive, debit negative, the
FloatString(10) rendering) to the account balance, so balances stay equal
to the credit-minus-debit totals over the stored posting rows. -/
theorem claim_C4 (db : Db) (lid : String) (pl : TxPayload) (db' : Db)
    (h : applyTransactionPosted db lid pl = .ok db') (hlaw : balanceLaw db) :
    balanceLaw db' := by
  unfold applyTransactionPosted at h
  split at h
  · cases h
    exact hlaw
  · exact applyPostings_balanceLaw lid pl.transactionId pl.postings _ db' h hlaw

def tinyAmountPayload : TxPayload :=
  { transactionId := "t-tiny", externalId := "", currency := "USD"
    occurredAt := "2024-01-01T12:00:00Z"
    postings := [{ accountCode := "cash", direction := "debit", amount := "0.00000000001" },
                 { accountCode := "revenue", direction := "credit", amount := "0.00000000001" }] }

unseal Rat.add Rat.mul Rat.sub Rat.inv in
/-- C4 counterexample: the claim says the projector adds the exact
±Amount.  For the amount 0.00000000001 (one fractional digit beyond the
column scale) the parsed value is positive, yet applying the event leaves
both balances at 0: the stored delta is the amount rounded to 10
fractional digits, not the exact amount. -/
theorem claim_C4_cex :
    ratSetString "0.00000000001" = some (1 / 100000000000) ∧
    (1 / 100000000000 : ℚ) ≠ 0 ∧
    (applyTransactionPosted seedDb "L1" tinyAmountPayload).toOption.map
      (fun d => d.accounts.map (fun a => a.balance)) = some [0, 0] := by
  refine ⟨by decide, by decide, ?_⟩
  decide

/-- Executable form of the balance law, for witnesses. -/
def balanceLawB (db : Db) : Bool :=
  db.accounts.all (fun a =>
    decide (a.balance = creditSumOf db.postings a.id - debitSumOf db.postings a.id))

theorem balanceLaw_of_B (db : Db) (h : balanceLawB db = true) : balanceLaw db :=
  fun a ha => of_decide_eq_true (List.all_eq_true.mp h a ha)

def c4WitnessDb : Db :=
  match applyTransactionPosted seedDb "L1" c6Payload with
  | .ok d => d
  | .error _ => seedDb

unseal Rat.add Rat.mul Rat.sub Rat.inv in
/-- C4 witness: the amended theorem applied to the seed read model (which
satisfies the balance law) and the balanced two-posting event. -/
theorem claim_C4_witness : balanceLaw c4WitnessDb :=
  claim_C4 seedDb "L1" c6Payload c4WitnessDb (by decide)
    (balanceLaw_of_B seedDb (by decide))

/-! ## Projector convergence failure (C5)

Event ids are random uuid.NewString values, not monotone in commit order.
The projector stores the last processed id and filters id > offset by uuid
order while replaying in (created_at, id) order; an event committed later
whose uuid sorts below the stored offset is never selected again. -/

def laterCmd : PostTransactionCommand :=
  { seedCmd with idempotencyKey := "k2", externalId := "ord-2" }

/-- State after the first posting (event uuid starting with b) has been
committed and projected: the offset is that uuid. -/
def c5Db1 : Db :=
  projectStep (postTransaction seedDb seedCmd "bbbbbbbb-0000-4000-8000-000000000001" "t1").2

/-- Then a second posting commits with an event uuid starting with a. -/
def c5Db2 : Db :=
  (postTransaction c5Db1 laterCmd "aaaaaaaa-0000-4000-8000-000000000002" "t2").2

unseal Rat.add Rat.mul Rat.sub Rat.inv in
/-- C5: evaluation of the code at the failing input.  c5Db2 holds two
TransactionPosted events; the offset equals the first (uuid-larger) id,
the second event is not yet projected, and every further projector pass is
the identity: transaction t2 never reaches the read model, so the
read models do not converge to one application per event. -/
theorem claim_C5 :
    c5Db2.events.map (fun e => e.id) =
      ["bbbbbbbb-0000-4000-8000-000000000001", "aaaaaaaa-0000-4000-8000-000000000002"] ∧
    (∀ e ∈ c5Db2.events, e.eventType = "TransactionPosted") ∧
    projectorOffset c5Db2 = "bbbbbbbb-0000-4000-8000-000000000001" ∧
    c5Db2.transactions.map (fun t => t.id) = ["t1"] ∧
    (∀ n : Nat, projectIter n c5Db2 = c5Db2) := by
  have hfix : projectStep c5Db2 = c5Db2 := by decide
  refine ⟨by decide, by decide, by decide, by decide, ?_⟩
  intro n
  induction n with
  | zero => rfl
  | succ n ih =>
    show projectIter n (projectStep c5Db2) = c5Db2
    rw [hfix]
    exact ih

/-! ## Webhook signature (C8) -/

def emptyTxPayload : TxPayload :=
  { transactionId := "", externalId := "", currency := "", occurredAt := "", postings := [] }

/-- The payload of the event row a job refers to (the worker fails before
any attempt when the row is missing, so the default is never signed). -/
def storedPayload (db : Db) (args : WebhookArgs) : TxPayload :=
  match findEvent db args.eventId args.ledgerId with
  | some e => e.payload
  | none => emptyTxPayload

theorem sendSingleWebhook_request (ep : WebhookEndpoint) (eventId : String)
    (payload : List Nat) (attempt : Nat) (o : SendOutcome) :
    (sendSingleWebhook ep eventId payload attempt o).request = none ∨
    (sendSingleWebhook ep eventId payload attempt o).request =
      some (webhookRequest ep payload) := by
  cases o with
  | buildFailure m => exact Or.inl rfl
  | netFailure m => exact Or.inr rfl
  | response s => exact Or.inr rfl

theorem workLoop_bodies (eventId : String) (payload : List Nat) (attempt : Nat)
    (conds : String → EndpointCondition) :
    ∀ (eps : List WebhookEndpoint) (fails : Nat) (atts : List SendResult) (d : Db),
    (∀ r ∈ atts, ∀ req, r.request = some req → req.body = payload) →
    ∀ r ∈ (workLoop eventId payload attempt conds eps fails atts d).2.1,
      ∀ req, r.request = some req → req.body = payload := by
  intro eps
  induction eps with
  | nil =>
    intro fails atts d hatts r hr
    simpa [workLoop] using hatts r hr
  | cons ep rest ih =>
    intro fails atts d hatts r hr
    simp only [workLoop] at hr
    split at hr
    · exact ih _ _ _ hatts r hr
    · rename_i o ho
      split at hr
      · exact ih _ _ _ hatts r hr
      · refine ih _ _ _ ?_ r hr
        intro r2 hr2 req hreq
        rcases List.mem_append.mp hr2 with h2 | h2
        · exact hatts r2 h2 req hreq
        · have h3 : r2 = sendSingleWebhook ep eventId payload attempt o := by
            simpa using h2
          subst h3
          rcases sendSingleWebhook_request ep eventId payload attempt o with hn | hs
          · rw [hn] at hreq
            exact absurd hreq (by simp)
          · rw [hs] at hreq
            cases hreq
            rfl

/-- C8: the signature header of every webhook request is the hex HMAC-SHA-256
of the request body under the endpoint secret; whenever sendSingleWebhook
builds a request at all it is the one fixed request for that endpoint and
payload, independent of the job attempt; and within Worker.Work every
attempted request carries exactly the stored event payload bytes as body,
so retries of the same event to the same endpoint sign identical bytes
identically. -/
theorem claim_C8 :
    (∀ secret payload, computeWebhookSignature secret payload =
      hexOfBytes (hmacSha256 secret payload)) ∧
    (∀ (ep : WebhookEndpoint) (payload : List Nat),
      (webhookRequest ep payload).body = payload ∧
      List.lookup "X-Ledger-Signature" (webhookRequest ep payload).headers =
        some (computeWebhookSignature (utf8Bytes ep.secret) payload)) ∧
    (∀ (ep : WebhookEndpoint) (eventId : String) (payload : List Nat)
      (attempt : Nat) (o : SendOutcome),
      (sendSingleWebhook ep eventId payload attempt o).request = none ∨
      (sendSingleWebhook ep eventId payload attempt o).request =
        some (webhookRequest ep payload)) ∧
    (∀ (db : Db) (args : WebhookArgs) (attempt : Nat)
      (conds : String → EndpointCondition),
      ((doWork db args attempt conds).attempts.all (fun r =>
        match r.request with
        | some req => req.body == txPayloadBytes (storedPayload db args)
        | none => true)) = true) := by
  refine ⟨fun _ _ => rfl, fun ep payload => ⟨rfl, rfl⟩, sendSingleWebhook_request, ?_⟩
  intro db args attempt conds
  rw [List.all_eq_true]
  intro r hr
  unfold doWork at hr
  split at hr
  · simp at hr
  · rename_i e hfe
    by_cases hemp : (activeEndpoints db args.ledgerId).isEmpty = true
    · rw [if_pos hemp] at hr
      simp at hr
    · rw [if_neg hemp] at hr
      have hr2 : r ∈ (workLoop args.eventId (txPayloadBytes e.payload) attempt conds
          (activeEndpoints db args.ledgerId) 0 [] db).2.1 := hr
      have hbody := workLoop_bodies args.eventId (txPayloadBytes e.payload) attempt conds
        (activeEndpoints db args.ledgerId) 0 [] db (by intro r2 hr2; simp at hr2) r hr2
      have hsp : storedPayload db args = e.payload := by
        unfold storedPayload
        rw [hfe]
      rw [hsp]
      cases hreq : r.request with
      | none => rfl
      | some req =>
        have := hbody req hreq
        simp [this]

/-! ## Delivery classification and job retry decision (C9) -/

/-- The retryable outcomes: transport failures and HTTP 5xx. -/
def retryableOutcome : SendOutcome → Bool
  | .buildFailure _ => false
  | .netFailure _ => true
  | .response s => decide (500 ≤ s)

/-- An endpoint produces a retryable failure during one job run exactly
when its idempotency check fails transiently, or it is not already
delivered and its send outcome is retryable (the cases in which Work
increments its retryable-failure counter). -/
def endpointRetryableFailure (db : Db) (eventId : String)
    (conds : String → EndpointCondition) (ep : WebhookEndpoint) : Bool :=
  match conds ep.id with
  | .checkFailure => true
  | .send o => !alreadyDelivered db.webhookDeliveries eventId ep.id && retryableOutcome o

theorem sendSingleWebhook_shouldRetry (ep : WebhookEndpoint) (eventId : String)
    (payload : List Nat) (attempt : Nat) (o : SendOutcome) :
    (sendSingleWebhook ep eventId payload attempt o).shouldRetry = retryableOutcome o := by
  cases o <;> rfl

theorem sendSingleWebhook_row_endpoint (ep : WebhookEndpoint) (eventId : String)
    (payload : List Nat) (attempt : Nat) (o : SendOutcome) :
    (sendSingleWebhook ep eventId payload attempt o).row.endpointId = ep.id := by
  cases o <;> rfl

theorem alreadyDelivered_append (rows : List DeliveryRow) (row : DeliveryRow)
    (eventId endpointId : String) :
    alreadyDelivered (rows ++ [row]) eventId endpointId =
      (alreadyDelivered rows eventId endpointId ||
        (row.eventId == eventId && row.endpointId == endpointId &&
          row.status == "success")) := by
  simp [alreadyDelivered, List.any_append]

theorem workLoop_fails (eventId : String) (payload : List Nat) (attempt : Nat)
    (conds : String → EndpointCondition) (dbRef : Db) :
    ∀ (eps : List WebhookEndpoint) (fails : Nat) (atts : List SendResult) (d : Db),
    (∀ ep ∈ eps, alreadyDelivered d.webhookDeliveries eventId ep.id =
      alreadyDelivered dbRef.webhookDeliveries eventId ep.id) →
    (eps.map (fun w => w.id)).Nodup →
    (workLoop eventId payload attempt conds eps fails atts d).1 =
      fails + eps.countP (fun ep => endpointRetryableFailure dbRef eventId conds ep) := by
  intro eps
  induction eps with
  | nil =>
    intro fails atts d _ _
    simp [workLoop]
  | cons ep rest ih =>
    intro fails atts d hinv hnodup
    have hnodup2 : (rest.map (fun w => w.id)).Nodup := (List.nodup_cons.mp hnodup).2
    have hnotin : ep.id ∉ rest.map (fun w => w.id) := (List.nodup_cons.mp hnodup).1
    simp only [workLoop]
    split
    · rename_i hc
      have hpred : endpointRetryableFailure dbRef eventId conds ep = true := by
        simp only [endpointRetryableFailure, hc]
      rw [ih (fails + 1) atts d (fun w hw => hinv w (List.mem_cons_of_mem ep hw)) hnodup2]
      rw [List.countP_cons, hpred, if_pos (Eq.refl true)]
      omega
    · rename_i o hc
      have hdel := hinv ep (List.mem_cons_self ep rest)
      by_cases hA : alreadyDelivered d.webhookDeliveries eventId ep.id = true
      · rw [if_pos hA]
        have hpred : endpointRetryableFailure dbRef eventId conds ep = false := by
          simp only [endpointRetryableFailure, hc, ← hdel, hA, Bool.not_true,
            Bool.false_and]
        rw [ih fails atts d (fun w hw => hinv w (List.mem_cons_of_mem ep hw)) hnodup2]
        rw [List.countP_cons, hpred]
        simp only [Bool.false_eq_true, if_false]
        omega
      · rw [if_neg hA]
        have hAf : alreadyDelivered d.webhookDeliveries eventId ep.id = false :=
          Bool.eq_false_iff.mpr hA
        have hpred : endpointRetryableFailure dbRef eventId conds ep = retryableOutcome o := by
          simp only [endpointRetryableFailure, hc, ← hdel, hAf, Bool.not_false,
            Bool.true_and]
        have hinv2 : ∀ w ∈ rest,
            alreadyDelivered (d.webhookDeliveries ++
              [(sendSingleWebhook ep eventId payload attempt o).row]) eventId w.id =
            alreadyDelivered dbRef.webhookDeliveries eventId w.id := by
          intro w hw
          rw [alreadyDelivered_append]
          have hne : ((sendSingleWebhook ep eventId payload attempt o).row.endpointId
              == w.id) = false := by
            rw [sendSingleWebhook_row_endpoint]
            refine beq_eq_false_iff_ne .. |>.mpr ?_
            intro hEq
            exact hnotin (hEq ▸ List.mem_map_of_mem (fun w => w.id) hw)
          rw [hne]
          simp only [Bool.and_false, Bool.false_and, Bool.or_false]
          exact hinv w (List.mem_cons_of_mem ep hw)
        rw [ih _ _ _ hinv2 hnodup2]
        rw [List.countP_cons, hpred, sendSingleWebhook_shouldRetry]
        cases retryableOutcome o
        · simp only [Bool.false_eq_true, if_false, if_true, eq_self_iff_true]
          omega
        · simp only [Bool.false_eq_true, if_false, if_true, eq_self_iff_true]
          omega

/-- C9: per attempt, a 2xx response is recorded as success with no retry;
5xx and transport failures are recorded as retryable_error and make the
attempt retryable; 4xx and request-build failures are recorded as
non_retryable_error with no retry (a build failure sends nothing); and,
given the outbox invariant that the event row exists, the job completes
without error exactly when no active endpoint produced a retryable
failure. -/
theorem claim_C9 (db : Db) (args : WebhookArgs) (attempt : Nat)
    (conds : String → EndpointCondition)
    (hnodup : ((activeEndpoints db args.ledgerId).map (fun w => w.id)).Nodup)
    (hev : (findEvent db args.eventId args.ledgerId).isSome = true) :
    ((∀ (ep : WebhookEndpoint) (eid : String) (p : List Nat) (a t : Nat),
        (sendSingleWebhook ep eid p a (.response (200 + t % 100))).row.status = "success" ∧
        (sendSingleWebhook ep eid p a (.response (200 + t % 100))).shouldRetry = false) ∧
      (∀ (ep : WebhookEndpoint) (eid : String) (p : List Nat) (a t : Nat),
        (sendSingleWebhook ep eid p a (.response (500 + t))).row.status = "retryable_error" ∧
        (sendSingleWebhook ep eid p a (.response (500 + t))).shouldRetry = true) ∧
      (∀ (ep : WebhookEndpoint) (eid : String) (p : List Nat) (a : Nat) (m : String),
        (sendSingleWebhook ep eid p a (.netFailure m)).row.status = "retryable_error" ∧
        (sendSingleWebhook ep eid p a (.netFailure m)).shouldRetry = true) ∧
      (∀ (ep : WebhookEndpoint) (eid : String) (p : List Nat) (a t : Nat),
        (sendSingleWebhook ep eid p a (.response (400 + t % 100))).row.status =
          "non_retryable_error" ∧
        (sendSingleWebhook ep eid p a (.response (400 + t % 100))).shouldRetry = false) ∧
      (∀ (ep : WebhookEndpoint) (eid : String) (p : List Nat) (a : Nat) (m : String),
        (sendSingleWebhook ep eid p a (.buildFailure m)).row.status =
          "non_retryable_error" ∧
        (sendSingleWebhook ep eid p a (.buildFailure m)).shouldRetry = false ∧
        (sendSingleWebhook ep eid p a (.buildFailure m)).request = none)) ∧
    ((doWork db args attempt conds).result = .ok () ↔
      ∀ ep ∈ activeEndpoints db args.ledgerId,
        endpointRetryableFailure db args.eventId conds ep = false) := by
  constructor
  · refine ⟨?_, ?_, ?_, ?_, ?_⟩
    · intro ep eid p a t
      have h5 : ¬(500 ≤ 200 + t % 100) := by omega
      have h4 : ¬(400 ≤ 200 + t % 100) := by omega
      constructor
      · simp [sendSingleWebhook, if_neg h5, if_neg h4]
      · simp [sendSingleWebhook, decide_eq_false h5]
    · intro ep eid p a t
      have h5 : 500 ≤ 500 + t := by omega
      constructor
      · simp [sendSingleWebhook, if_pos h5]
      · simp [sendSingleWebhook, decide_eq_true h5]
    · intro ep eid p a m
      exact ⟨rfl, rfl⟩
    · intro ep eid p a t
      have h5 : ¬(500 ≤ 400 + t % 100) := by omega
      have h4 : 400 ≤ 400 + t % 100 := by omega
      constructor
      · simp [sendSingleWebhook, if_neg h5, if_pos h4]
      · simp [sendSingleWebhook, decide_eq_false h5]
    · intro ep eid p a m
      exact ⟨rfl, rfl, rfl⟩
  · unfold doWork
    split
    · rename_i hfe
      rw [hfe] at hev
      exact absurd hev (by simp)
    · rename_i e hfe
      by_cases hemp : (activeEndpoints db args.ledgerId).isEmpty = true
      · rw [if_pos hemp]
        have : activeEndpoints db args.ledgerId = [] := List.isEmpty_iff.mp hemp
        rw [this]
        simp
      · rw [if_neg hemp]
        have hcount := workLoop_fails args.eventId (txPayloadBytes e.payload) attempt conds db
          (activeEndpoints db args.ledgerId) 0 [] db (fun _ _ => rfl) hnodup
        rw [hcount]
        simp only [Nat.zero_add]
        constructor
        · intro hok
          by_cases hpos : 0 < (activeEndpoints db args.ledgerId).countP
              (fun ep => endpointRetryableFailure db args.eventId conds ep)
          · rw [if_pos hpos] at hok
            exact absurd hok (by simp)
          · intro ep hep
            have hz : (activeEndpoints db args.ledgerId).countP
                (fun ep => endpointRetryableFailure db args.eventId conds ep) = 0 := by
              omega
            have := List.countP_eq_zero.mp hz ep hep
            exact Bool.eq_false_iff.mpr this
        · intro hall
          have hz : (activeEndpoints db args.ledgerId).countP
              (fun ep => endpointRetryableFailure db args.eventId conds ep) = 0 :=
            List.countP_eq_zero.mpr (fun ep hep => by rw [hall ep hep]; simp)
          rw [hz]
          simp

def webhookDb : Db :=
  { c2ReplayDb with webhookEndpoints :=
      [{ id := "ep1", ledgerId := "L1", url := "https://a.example/hook",
         secret := "s1", isActive := true },
       { id := "ep2", ledgerId := "L1", url := "https://b.example/hook",
         secret := "s2", isActive := true }] }

def condsAll200 : String → EndpointCondition := fun _ => .send (.response 200)

unseal Rat.add Rat.mul Rat.sub Rat.inv in
/-- C9 witness: the theorem applied to the posted event fanned out to two
healthy endpoints; with every delivery answered 200 the job completes
without error. -/
theorem claim_C9_witness :
    (doWork webhookDb { eventId := "e1", ledgerId := "L1" } 1 condsAll200).result =
      .ok () :=
  ((claim_C9 webhookDb { eventId := "e1", ledgerId := "L1" } 1 condsAll200
    (by decide) (by decide)).2).mpr (by decide)
